import Mathlib

/-!
Verification development for a database-driven multi-site web application
(a Flask app with `app.py` routing logic and `models.py` data models).

The persisted records (sites, pages, content blocks, navigation items) are
embedded as Lean structures; a database snapshot is a record of lists held in
insertion (creation) order.  SQLAlchemy read queries (`filter_by` chains,
`order_by`, `.first()`, `.all()`) are embedded over these lists: `filter_by`
becomes `List.filter`, `.first()` becomes `List.head?` of the filtered list,
and `order_by(col)` becomes a stable sort (`List.insertionSort`) on the
filtered list, reflecting the insertion-order tie-breaking of row retrieval.
Python exception control flow (`abort(404)`, `raise ValueError`) is embedded
with `Except`.  The unbounded recursion of the navigation builder is embedded
with an explicit fuel parameter: a `none` result means the recursion depth
exceeded the fuel.
-/

namespace Mullet

/-- Embeds the `Site` model of `models.py` (fields relevant to routing:
`id`, `path_prefix`, `name`, `template_theme`, `is_active`). -/
structure Site where
  id : Nat
  path_prefix : String
  name : String
  template_theme : String
  is_active : Bool
deriving DecidableEq, Repr

/-- Embeds the `Page` model of `models.py` (fields relevant to routing). -/
structure Page where
  id : Nat
  site_id : Nat
  path : String
  title : String
  is_active : Bool
deriving DecidableEq, Repr

/-- Embeds the `ContentBlock` model of `models.py`.  `title` is nullable in
the schema, hence `Option String`. -/
structure ContentBlock where
  id : Nat
  page_id : Nat
  block_type : String
  title : Option String
  content : String
  order_index : Int
  is_active : Bool
deriving DecidableEq, Repr

/-- Embeds the `NavigationItem` model of `models.py`.  `parent_id` is a
nullable self-referential foreign key, hence `Option Nat`. -/
structure NavigationItem where
  id : Nat
  site_id : Nat
  label : String
  url : String
  parent_id : Option Nat
  order_index : Int
  is_active : Bool
deriving DecidableEq, Repr

/-- A snapshot of the database: each table as a list of rows in insertion
(creation) order. -/
structure DB where
  sites : List Site
  pages : List Page
  content_blocks : List ContentBlock
  navigation_items : List NavigationItem
deriving DecidableEq, Repr

/-- Python `str.isalnum()` on a character list: true iff nonempty and all
characters alphanumeric (restricted to the ASCII range here). -/
def py_isalnum (l : List Char) : Bool :=
  !l.isEmpty && l.all Char.isAlphanum

/-- Python `str.strip(sep)` for a single-character argument: removes leading
and trailing occurrences of that character. -/
def strip_char (sep : Char) (l : List Char) : List Char :=
  ((l.dropWhile (fun c => c == sep)).reverse.dropWhile (fun c => c == sep)).reverse

/-- Python `str.split(sep)` for a single nonempty separator character:
splits at every occurrence, keeping empty pieces (`"".split(sep) == [""]`). -/
def split_char (sep : Char) : List Char → List (List Char)
  | [] => [[]]
  | c :: cs =>
    match split_char sep cs with
    | [] => [[]]
    | g :: gs => if c == sep then [] :: g :: gs else (c :: g) :: gs

/-- Python `str.split(sep)` lifted to `String`. -/
def py_split (sep : Char) (s : String) : List String :=
  (split_char sep s.toList).map (fun cs => String.mk cs)

/-- Python `str.strip()` with no argument: removes leading and trailing
whitespace. -/
def py_strip (s : String) : String :=
  String.mk (((s.toList.dropWhile Char.isWhitespace).reverse.dropWhile Char.isWhitespace).reverse)

/-- Python `str.lower()` (restricted to the ASCII range). -/
def py_lower (s : String) : String :=
  String.mk (s.toList.map Char.toLower)

/-- Embeds `Site.validate_path_prefix` of `models.py`: rejects the prefix
unless, after removing hyphens and underscores, it is nonempty alphanumeric;
returns the prefix lowercased. -/
def validate_path_prefix (pfx : String) : Except String String :=
  if pfx == "" || !py_isalnum (pfx.toList.filter (fun c => !(c == '-' || c == '_'))) then
    Except.error "Path prefix must contain only alphanumeric characters, hyphens, and underscores"
  else
    Except.ok (py_lower pfx)

/-- Embeds `Page.validate_path` of `models.py`: rejects the path unless,
after removing hyphens, underscores and slashes, it is nonempty alphanumeric;
returns the path lowercased. -/
def validate_path (path : String) : Except String String :=
  if path == "" || !py_isalnum (path.toList.filter (fun c => !(c == '-' || c == '_' || c == '/'))) then
    Except.error "Page path must contain only alphanumeric characters, hyphens, underscores, and slashes"
  else
    Except.ok (py_lower path)

/-- Embeds `Site.validate_template_theme` of `models.py`: the theme must be
in the literal allow-list, else a `ValueError` is raised. -/
def validate_template_theme (theme : String) : Except String String :=
  let allowed_themes := ["corporate", "blog", "portfolio", "default"]
  if theme ∈ allowed_themes then Except.ok theme
  else Except.error ("Template theme must be one of: " ++ String.intercalate ", " allowed_themes)

/-- Embeds `ContentBlock.validate_block_type` of `models.py`: the block type
must be in the literal allow-list, else a `ValueError` is raised. -/
def validate_block_type (block_type : String) : Except String String :=
  let allowed_types := ["text", "html", "image", "list", "quote", "code", "video", "gallery"]
  if block_type ∈ allowed_types then Except.ok block_type
  else Except.error ("Block type must be one of: " ++ String.intercalate ", " allowed_types)

/-- Embeds the module-level `CONTENT_BLOCK_TYPES` dict of `models.py` as an
association list from type tag to class name (all built-in tags map to the
`ContentBlock` class). -/
def CONTENT_BLOCK_TYPES : List (String × String) :=
  [("text", "ContentBlock"), ("html", "ContentBlock"), ("image", "ContentBlock"),
   ("list", "ContentBlock"), ("quote", "ContentBlock"), ("code", "ContentBlock"),
   ("video", "ContentBlock"), ("gallery", "ContentBlock")]

/-- Python dict assignment `d[k] = v` on an association list: overwrite in
place if the key exists, else append. -/
def dict_set (k v : String) : List (String × String) → List (String × String)
  | [] => [(k, v)]
  | e :: rest => if e.1 = k then (k, v) :: rest else e :: dict_set k v rest

/-- Embeds `register_content_block_type` of `models.py`: stores the class
under the tag in the registry. -/
def register_content_block_type (block_type cls : String)
    (registry : List (String × String)) : List (String × String) :=
  dict_set block_type cls registry

/-- Embeds `get_content_block_class` of `models.py`: dict `.get` with the
`ContentBlock` class as default. -/
def get_content_block_class (block_type : String)
    (registry : List (String × String)) : String :=
  (((registry.find? (fun e => e.1 == block_type)).map (fun e => e.2))).getD "ContentBlock"

/-- Acceptance of a block type by the model validator, stated relative to a
registry state.  The source validator (`validate_block_type`) reads a literal
local allow-list and never consults the `CONTENT_BLOCK_TYPES` registry; the
registry parameter is carried here only so that independence of acceptance
from registration can be stated. -/
def validate_block_type_in (registry : List (String × String)) (block_type : String) :
    Except String String :=
  let _ := registry
  validate_block_type block_type

/-- Embeds `ContentBlock.render` of `models.py`: the `if/elif` chain over
`block_type`, with the generic fallback wrapper in the `else` branch.
Python f-strings become string concatenation. -/
def ContentBlock.render (b : ContentBlock) : String :=
  if b.block_type = "text" then
    "<div class='content-block text'><p>" ++ b.content ++ "</p></div>"
  else if b.block_type = "html" then
    "<div class='content-block html'>" ++ b.content ++ "</div>"
  else if b.block_type = "image" then
    let alt_text := match b.title with
      | some t => if t = "" then "Content Image" else t
      | none => "Content Image"
    "<div class='content-block image'><img src='" ++ b.content ++ "' alt='" ++ alt_text ++ "'></div>"
  else if b.block_type = "list" then
    let items := ((py_split '\n' b.content).filter (fun item => py_strip item != "")).map
      (fun item => py_strip item)
    let list_html := "<ul>" ++ String.join (items.map (fun item => "<li>" ++ item ++ "</li>")) ++ "</ul>"
    "<div class='content-block list'>" ++ list_html ++ "</div>"
  else if b.block_type = "quote" then
    "<div class='content-block quote'><blockquote>" ++ b.content ++ "</blockquote></div>"
  else if b.block_type = "code" then
    "<div class='content-block code'><pre><code>" ++ b.content ++ "</code></pre></div>"
  else
    "<div class='content-block " ++ b.block_type ++ "'>" ++ b.content ++ "</div>"

/-- Embeds `render_content_blocks` of `app.py`: renders each block by its
type tag (unknown tags get the `unknown`-labelled wrapper) and joins the
pieces with newlines.  Note the `list` branch here, unlike
`ContentBlock.render`, emits each kept line untrimmed. -/
def render_content_blocks (content_blocks : List ContentBlock) : String :=
  let rendered_content := content_blocks.map (fun block =>
    if block.block_type = "text" then
      "<div class='content-block text'>" ++ block.content ++ "</div>"
    else if block.block_type = "html" then
      "<div class='content-block html'>" ++ block.content ++ "</div>"
    else if block.block_type = "image" then
      "<div class='content-block image'><img src='" ++ block.content ++ "' alt='Content Image'></div>"
    else if block.block_type = "list" then
      let items := py_split '\n' block.content
      let list_html := "<ul>" ++
        String.join ((items.filter (fun item => py_strip item != "")).map
          (fun item => "<li>" ++ item ++ "</li>")) ++ "</ul>"
      "<div class='content-block list'>" ++ list_html ++ "</div>"
    else
      "<div class='content-block unknown'>" ++ block.content ++ "</div>")
  String.intercalate "\n" rendered_content

/-- Embeds `resolve_site` of `app.py`:
`Site.query.filter_by(path_prefix=..., is_active=True).first()`. -/
def resolve_site (d : DB) (pfx : String) : Option Site :=
  (d.sites.filter (fun s => Site.path_prefix s == pfx && s.is_active)).head?

/-- Embeds `resolve_page` of `app.py`:
`Page.query.filter_by(site_id=site.id, path=page_path, is_active=True).first()`. -/
def resolve_page (d : DB) (site : Site) (page_path : String) : Option Page :=
  (d.pages.filter (fun p => p.site_id == site.id && p.path == page_path && p.is_active)).head?

/-- Ordering used by `order_by(ContentBlock.order_index)`. -/
def block_le (a b : ContentBlock) : Prop := a.order_index ≤ b.order_index

instance : DecidableRel block_le := fun a b => Int.decLe a.order_index b.order_index

instance : IsTotal ContentBlock block_le := ⟨fun a b => Int.le_total a.order_index b.order_index⟩

instance : IsTrans ContentBlock block_le := ⟨fun _ _ _ => Int.le_trans⟩

/-- Ordering used by `order_by(NavigationItem.order_index)`. -/
def nav_le (a b : NavigationItem) : Prop := a.order_index ≤ b.order_index

instance : DecidableRel nav_le := fun a b => Int.decLe a.order_index b.order_index

instance : IsTotal NavigationItem nav_le := ⟨fun a b => Int.le_total a.order_index b.order_index⟩

instance : IsTrans NavigationItem nav_le := ⟨fun _ _ _ => Int.le_trans⟩

/-- Embeds `get_content_blocks` of `app.py`:
`ContentBlock.query.filter_by(page_id=page.id, is_active=True).order_by(ContentBlock.order_index).all()`. -/
def get_content_blocks (d : DB) (page : Page) : List ContentBlock :=
  List.insertionSort block_le
    (d.content_blocks.filter (fun b => b.page_id == page.id && b.is_active))

/-- A node of the navigation tree built by `build_navigation` /
`get_nav_children` in `app.py` (the dict with keys `id`, `label`, `url`,
`children`). -/
inductive NavNode where
  | mk (id : Nat) (label : String) (url : String) (children : List NavNode)

/-- Sequencing of an option-valued map over a list, modelling the Python
list comprehension `[f(child) for child in children]` whose body contains
the recursive (fuel-metered) call: `none` (fuel exhaustion) propagates. -/
def option_traverse (f : α → Option β) : List α → Option (List β)
  | [] => some []
  | x :: xs =>
    match f x, option_traverse f xs with
    | some y, some ys => some (y :: ys)
    | _, _ => none

/-- Embeds `get_nav_children` of `app.py`: fetches the active children of a
parent id ordered by `order_index` and recurses on each child's id.  The
Python recursion has no decreasing argument; the `fuel` parameter meters
recursion depth, `none` meaning the depth exceeded the fuel. -/
def get_nav_children (d : DB) : Nat → Nat → Option (List NavNode)
  | 0, _ => none
  | fuel + 1, pid =>
    let children := List.insertionSort nav_le
      (d.navigation_items.filter (fun it => it.parent_id == some pid && it.is_active))
    option_traverse
      (fun c => (get_nav_children d fuel c.id).map (fun sub => NavNode.mk c.id c.label c.url sub))
      children

/-- Embeds `build_navigation` of `app.py`: fetches the site's active
top-level items (`parent_id=None`) ordered by `order_index` and attaches
each item's children via `get_nav_children`. -/
def build_navigation (d : DB) (site : Site) (fuel : Nat) : Option (List NavNode) :=
  let nav_items := List.insertionSort nav_le
    (d.navigation_items.filter
      (fun it => it.site_id == site.id && it.parent_id == none && it.is_active))
  option_traverse
    (fun item => (get_nav_children d fuel item.id).map
      (fun ch => NavNode.mk item.id item.label item.url ch))
    nav_items

/-- Embeds `get_template_path` of `app.py`:
`f"themes/{theme}/{template_name}"`. -/
def get_template_path (site : Site) (template_name : String) : String :=
  "themes/" ++ site.template_theme ++ "/" ++ template_name

/-- Embeds `url_path.strip('/').split('/')` of `dynamic_route` in `app.py`. -/
def parse_path_parts (url_path : String) : List String :=
  (split_char '/' (strip_char '/' url_path.toList)).map (fun cs => String.mk cs)

/-- Embeds `path_parts[1] if len(path_parts) > 1 else 'home'` of
`dynamic_route`, applied to the segments after the site prefix. -/
def page_path_of : List String → String
  | [] => "home"
  | p :: _ => p

/-- The pipeline stages of `dynamic_route` in `app.py`, recorded in the
order the handler invokes them so that short-circuiting is observable. -/
inductive Stage where
  | site_resolution
  | page_resolution
  | blocks_fetch
  | nav_build
  | template_selection
  | template_render
deriving DecidableEq, Repr

/-- The data handed to `render_template` on the success path of
`dynamic_route`. -/
structure RouteOutput where
  site : Site
  page : Page
  content_blocks : List ContentBlock
  navigation : Option (List NavNode)
  template_path : String

/-- Embeds the body of `dynamic_route` of `app.py` after path parsing, over
the list of path segments.  `abort(404)` becomes `Except.error 404`.  The
second component records which pipeline stages were invoked. -/
def route_from_parts (d : DB) (fuel : Nat) :
    List String → Except Nat RouteOutput × List Stage
  | [] => (Except.error 404, [])
  | pfx :: rest =>
    let page_path := page_path_of rest
    match resolve_site d pfx with
    | none => (Except.error 404, [Stage.site_resolution])
    | some site =>
      match resolve_page d site page_path with
      | none => (Except.error 404, [Stage.site_resolution, Stage.page_resolution])
      | some page =>
        (Except.ok (RouteOutput.mk site page (get_content_blocks d page)
            (build_navigation d site fuel) (get_template_path site "page.html")),
         [Stage.site_resolution, Stage.page_resolution, Stage.blocks_fetch,
          Stage.nav_build, Stage.template_selection, Stage.template_render])

/-- Embeds `dynamic_route` of `app.py`: parse the URL path, then run the
resolution pipeline. -/
def dynamic_route (d : DB) (fuel : Nat) (url_path : String) :
    Except Nat RouteOutput × List Stage :=
  route_from_parts d fuel (parse_path_parts url_path)

end Mullet

namespace Mullet

/-- Demo tenant mirroring the spec's end-to-end scenario. -/
def acme_site : Site := ⟨1, "acme", "Acme Corporation", "corporate", true⟩

/-- Demo page `about` belonging to the demo tenant. -/
def about_page : Page := ⟨1, 1, "about", "About", true⟩

/-- Demo page `home` belonging to the demo tenant. -/
def home_page : Page := ⟨2, 1, "home", "Home", true⟩

/-- Demo quote block on the `about` page. -/
def quote_block : ContentBlock := ⟨1, 1, "quote", none, "Hello", 1, true⟩

/-- Demo database snapshot. -/
def demo_db : DB := ⟨[acme_site], [about_page, home_page], [quote_block], []⟩

/-- An empty database snapshot. -/
def empty_db : DB := ⟨[], [], [], []⟩

/-- The success output of the pipeline on `/acme/about` over `demo_db`. -/
def route_ok_output : RouteOutput :=
  ⟨acme_site, about_page, [quote_block], some [], "themes/corporate/page.html"⟩

/-- A `.first()` result is a row of the table satisfying the filter. -/
theorem filter_head_eq_some {α : Type} {p : α → Bool} {l : List α} {x : α}
    (h : (l.filter p).head? = some x) : x ∈ l ∧ p x = true := by
  have hx : x ∈ l.filter p := by
    cases hf : l.filter p with
    | nil => rw [hf] at h; simp at h
    | cons a t =>
      have hax : a = x := by rw [hf] at h; simpa using h
      rw [← hax]
      exact List.mem_cons_self a t
  exact List.mem_filter.mp hx

/-- A `.first()` result is `None` exactly when no row satisfies the filter. -/
theorem filter_head_eq_none {α : Type} {p : α → Bool} {l : List α} :
    (l.filter p).head? = none ↔ ∀ x ∈ l, ¬ p x = true := by
  rw [List.head?_eq_none_iff, List.filter_eq_nil_iff]

/-- When exactly one row satisfies the filter, `.first()` returns it. -/
theorem filter_head_unique {α : Type} {p : α → Bool} {l : List α} {x : α}
    (hx : x ∈ l) (hpx : p x = true) (huniq : ∀ y ∈ l, p y = true → y = x) :
    (l.filter p).head? = some x := by
  cases hf : l.filter p with
  | nil => exact absurd hpx (List.filter_eq_nil_iff.mp hf x hx)
  | cons a t =>
    have ha : a ∈ l.filter p := by rw [hf]; exact List.mem_cons_self a t
    obtain ⟨hal, hap⟩ := List.mem_filter.mp ha
    simp [huniq a hal hap]

/-- C4 counterexample: the template-selection key is not `<theme>/<name>`:
the produced key carries a `themes/` directory component, so the acme
scenario with template name `page` yields `themes/corporate/page`, not
`corporate/page`; and a theme outside the allow-list is not substituted by
a default in template-path selection. -/
theorem c4_counterexample :
    get_template_path acme_site "page" = "themes/corporate/page"
    ∧ get_template_path acme_site "page" ≠ "corporate/page"
    ∧ get_template_path ⟨2, "other", "Other", "weird", true⟩ "page.html"
        = "themes/weird/page.html" := by
  refine ⟨rfl, ?_, rfl⟩
  decide

/-- C4 (amended): `get_template_path` produces the composite key
`themes/<theme>/<template-name>` unconditionally (no allow-list check and no
default substitution at selection time); the theme allow-list is enforced at
the model write boundary, where an invalid theme raises `ValueError` rather
than being substituted; the dynamic route always selects with template name
`page.html`, so a success output's key is `themes/<site theme>/page.html`. -/
theorem c4_template_path (site : Site) (template_name : String) :
    get_template_path site template_name
      = "themes/" ++ site.template_theme ++ "/" ++ template_name
    ∧ (∀ theme, validate_template_theme theme = Except.ok theme ↔
        theme ∈ ["corporate", "blog", "portfolio", "default"])
    ∧ (∀ theme, theme ∉ ["corporate", "blog", "portfolio", "default"] →
        validate_template_theme theme = Except.error
          "Template theme must be one of: corporate, blog, portfolio, default")
    ∧ (∀ (d : DB) (fuel : Nat) (parts : List String) (out : RouteOutput),
        (route_from_parts d fuel parts).1 = Except.ok out →
        out.template_path = "themes/" ++ Site.template_theme out.site ++ "/page.html") := by
  refine ⟨rfl, ?_, ?_, ?_⟩
  · intro theme
    constructor
    · intro h
      by_contra hs
      simp [validate_template_theme, hs] at h
    · intro hs
      simp [validate_template_theme, hs]
  · intro theme hs
    simp [validate_template_theme, hs]
    rfl
  · intro d fuel parts out h
    cases parts with
    | nil => simp [route_from_parts] at h
    | cons pfx rest =>
      cases hs : resolve_site d pfx with
      | none => simp [route_from_parts, hs] at h
      | some site0 =>
        cases hp : resolve_page d site0 (page_path_of rest) with
        | none => simp [route_from_parts, hs, hp] at h
        | some page0 =>
          simp [route_from_parts, hs, hp] at h
          rw [← h]
          show "themes/" ++ Site.template_theme site0 ++ "/" ++ "page.html"
            = "themes/" ++ Site.template_theme site0 ++ "/page.html"
          rw [String.append_assoc]
          congr 1

/-- C4 witness: the amended statement evaluated on the acme scenario. -/
theorem c4_witness :
    RouteOutput.template_path route_ok_output
      = "themes/" ++ Site.template_theme (RouteOutput.site route_ok_output) ++ "/page.html" :=
  (c4_template_path acme_site "page.html").2.2.2 demo_db 1 ["acme", "about"]
    route_ok_output (by rfl)

/-- C5: a block whose type tag is none of the tags with a dedicated branch
in `ContentBlock.render` is rendered by the generic fallback wrapper, which
carries the type tag as the label and the raw content string unchanged; the
render function is total, so this path never raises. -/
theorem c5_unregistered_fallback (b : ContentBlock)
    (h : b.block_type ∉ ["text", "html", "image", "list", "quote", "code"]) :
    ContentBlock.render b =
      "<div class='content-block " ++ b.block_type ++ "'>" ++ b.content ++ "</div>" := by
  simp only [List.mem_cons, List.not_mem_nil, or_false, not_or] at h
  obtain ⟨h1, h2, h3, h4, h5, h6⟩ := h
  simp [ContentBlock.render, h1, h2, h3, h4, h5, h6]

/-- C5 witness: a `gallery` block renders through the fallback with its
content preserved byte for byte. -/
theorem c5_witness :
    ContentBlock.render ⟨7, 1, "gallery", none, "a.png|b.png", 0, true⟩ =
      "<div class='content-block " ++ "gallery" ++ "'>" ++ "a.png|b.png" ++ "</div>" :=
  c5_unregistered_fallback ⟨7, 1, "gallery", none, "a.png|b.png", 0, true⟩ (by decide)

/-- C8: once tenant resolution fails, the recorded pipeline trace contains
only the tenant-resolution stage, and once page resolution fails it contains
only the tenant- and page-resolution stages — content-block retrieval,
navigation building, template selection and rendering are never invoked. -/
theorem c8_short_circuit (d : DB) (fuel : Nat) (pfx : String) (rest : List String) :
    (resolve_site d pfx = none →
      route_from_parts d fuel (pfx :: rest) = (Except.error 404, [Stage.site_resolution]))
    ∧ (∀ site, resolve_site d pfx = some site →
        resolve_page d site (page_path_of rest) = none →
        route_from_parts d fuel (pfx :: rest) =
          (Except.error 404, [Stage.site_resolution, Stage.page_resolution])) := by
  constructor
  · intro h
    simp [route_from_parts, h]
  · intro site h1 h2
    simp [route_from_parts, h1, h2]

/-- C8 witness: an unknown tenant stops after tenant resolution; a matched
tenant with an unknown page stops after page resolution. -/
theorem c8_witness :
    route_from_parts empty_db 0 ["nosite", "x"] = (Except.error 404, [Stage.site_resolution])
    ∧ route_from_parts demo_db 0 ["acme", "missing"] =
        (Except.error 404, [Stage.site_resolution, Stage.page_resolution]) :=
  ⟨(c8_short_circuit empty_db 0 "nosite" ["x"]).1 (by rfl),
   (c8_short_circuit demo_db 0 "acme" ["missing"]).2 acme_site (by rfl) (by rfl)⟩

/-- C9 counterexample: `video` passes the block-type validator yet has no
dedicated branch in `ContentBlock.render`, so a validated `video` block is
rendered by the generic unknown-type fallback wrapper — the fallback is
reachable for validated blocks. -/
theorem c9_counterexample :
    validate_block_type "video" = Except.ok "video"
    ∧ ContentBlock.render ⟨3, 1, "video", none, "intro.mp4", 0, true⟩
        = "<div class='content-block video'>intro.mp4</div>" := by
  constructor
  · rfl
  · rfl

/-- C9 (amended): the validator accepts exactly the eight tags and raises
`ValueError` for every other tag; `register_content_block_type` mutates only
the `CONTENT_BLOCK_TYPES` registry, which the validator never reads, so
registration does not change the accepted set; hence every block passing
validation carries one of the eight tags.  (The unknown-type rendering
fallback, however, remains reachable for validated blocks: `video` and
`gallery` render through it.) -/
theorem c9_block_type_allowlist :
    (∀ s, validate_block_type s = Except.ok s ↔
      s ∈ ["text", "html", "image", "list", "quote", "code", "video", "gallery"])
    ∧ (∀ s, s ∉ ["text", "html", "image", "list", "quote", "code", "video", "gallery"] →
        validate_block_type s = Except.error
          "Block type must be one of: text, html, image, list, quote, code, video, gallery")
    ∧ (∀ registry block_type cls s,
        validate_block_type_in (register_content_block_type block_type cls registry) s =
          validate_block_type_in registry s)
    ∧ (∀ b : ContentBlock, (∃ v, validate_block_type b.block_type = Except.ok v) →
        b.block_type ∈ ["text", "html", "image", "list", "quote", "code", "video", "gallery"]) := by
  refine ⟨?_, ?_, ?_, ?_⟩
  · intro s
    constructor
    · intro h
      by_contra hs
      simp [validate_block_type, hs] at h
    · intro hs
      simp [validate_block_type, hs]
  · intro s hs
    simp [validate_block_type, hs]
    rfl
  · intro registry block_type cls s
    rfl
  · intro b h
    obtain ⟨v, hv⟩ := h
    by_contra hb
    simp [validate_block_type, hb] at hv

/-- C9 witness: the amended statement evaluated on concrete tags. -/
theorem c9_witness :
    validate_block_type "text" = Except.ok "text" :=
  ((c9_block_type_allowlist).1 "text").mpr (by decide)

end Mullet

namespace Mullet

/-- C1 counterexample: the dynamic route performs no lowercase normalization
of the first path segment.  `acme_site` is active with path prefix `acme`,
the segment `ACME` lowercases to `acme`, yet resolving `ACME` yields no site
and the route answers 404 — where the claim predicts the acme site. -/
theorem c1_counterexample :
    Site.is_active acme_site = true
    ∧ Site.path_prefix acme_site = "acme"
    ∧ py_lower "ACME" = "acme"
    ∧ resolve_site demo_db "ACME" = none
    ∧ (dynamic_route demo_db 1 "ACME/about").1 = Except.error 404 := by
  refine ⟨rfl, rfl, by decide, by rfl, by rfl⟩

/-- C1 (amended): tenant resolution compares the raw first segment for exact
(case-sensitive) equality with the stored path prefix of an active Site (the
prefix itself is lowercased at the model write boundary): an exact match on a
unique active prefix yields exactly that Site, and an unknown or inactive
prefix yields NotFound — never a partial-prefix match and never more than one
result. -/
theorem c1_exact_match_resolution (d : DB) (pfx : String) :
    (∀ s, resolve_site d pfx = some s →
      s ∈ d.sites ∧ Site.path_prefix s = pfx ∧ s.is_active = true)
    ∧ (resolve_site d pfx = none ↔
        ∀ s ∈ d.sites, ¬( Site.path_prefix s = pfx ∧ s.is_active = true))
    ∧ (∀ s, s ∈ d.sites → Site.path_prefix s = pfx → s.is_active = true →
        (∀ t ∈ d.sites, Site.path_prefix t = pfx → t.is_active = true → t = s) →
        resolve_site d pfx = some s) := by
  refine ⟨?_, ?_, ?_⟩
  · intro s h
    obtain ⟨hmem, hp⟩ := filter_head_eq_some h
    simp only [Bool.and_eq_true, beq_iff_eq] at hp
    exact ⟨hmem, hp.1, hp.2⟩
  · unfold resolve_site
    rw [filter_head_eq_none]
    constructor
    · intro h s hs hcon
      exact h s hs (by simp [hcon.1, hcon.2])
    · intro h s hs hp
      simp only [Bool.and_eq_true, beq_iff_eq] at hp
      exact h s hs ⟨hp.1, hp.2⟩
  · intro s hs hpfx hact huniq
    unfold resolve_site
    apply filter_head_unique hs (by simp [hpfx, hact])
    intro y hy hpy
    simp only [Bool.and_eq_true, beq_iff_eq] at hpy
    exact huniq y hy hpy.1 hpy.2

/-- C1 witness: the amended statement evaluated on the demo database. -/
theorem c1_witness :
    resolve_site demo_db "acme" = some acme_site :=
  (c1_exact_match_resolution demo_db "acme").2.2 acme_site (by decide) (by decide)
    (by decide) (by decide)

/-- C6: with no remaining segment after the site prefix the page path
defaults to the literal `home` (the one- and two-segment routes agree);
page lookup matches exactly an active page scoped to (site id, path) — a
returned page satisfies all three conditions, a miss happens exactly when no
page satisfies them (no fallback), and a unique matching page is returned. -/
theorem c6_home_default (d : DB) (fuel : Nat) (pfx : String) :
    route_from_parts d fuel [pfx] = route_from_parts d fuel [pfx, "home"]
    ∧ (∀ site page_path pg, resolve_page d site page_path = some pg →
        pg ∈ d.pages ∧ pg.site_id = site.id ∧ pg.path = page_path ∧ pg.is_active = true)
    ∧ (∀ site page_path, resolve_page d site page_path = none ↔
        ∀ pg ∈ d.pages, ¬(pg.site_id = site.id ∧ pg.path = page_path ∧ pg.is_active = true))
    ∧ (∀ site page_path pg, pg ∈ d.pages → pg.site_id = site.id → pg.path = page_path →
        pg.is_active = true →
        (∀ q ∈ d.pages, q.site_id = site.id → q.path = page_path → q.is_active = true → q = pg) →
        resolve_page d site page_path = some pg) := by
  refine ⟨rfl, ?_, ?_, ?_⟩
  · intro site page_path pg h
    obtain ⟨hmem, hp⟩ := filter_head_eq_some h
    simp only [Bool.and_eq_true, beq_iff_eq] at hp
    exact ⟨hmem, hp.1.1, hp.1.2, hp.2⟩
  · intro site page_path
    unfold resolve_page
    rw [filter_head_eq_none]
    constructor
    · intro h pg hpg hcon
      exact h pg hpg (by simp [hcon.1, hcon.2.1, hcon.2.2])
    · intro h pg hpg hp
      simp only [Bool.and_eq_true, beq_iff_eq] at hp
      exact h pg hpg ⟨hp.1.1, hp.1.2, hp.2⟩
  · intro site page_path pg h1 h2 h3 h4 huniq
    unfold resolve_page
    apply filter_head_unique h1 (by simp [h2, h3, h4])
    intro q hq hpq
    simp only [Bool.and_eq_true, beq_iff_eq] at hpq
    exact huniq q hq hpq.1.1 hpq.1.2 hpq.2

/-- C6 witness: the page-lookup statement evaluated on the demo database. -/
theorem c6_witness :
    resolve_page demo_db acme_site "home" = some home_page :=
  (c6_home_default demo_db 0 "acme").2.2.2 acme_site "home" home_page (by decide)
    (by decide) (by decide) (by decide) (by decide)

/-- Filtering by nonempty-after-strip and then stripping equals stripping
and then filtering by nonempty. -/
theorem filter_map_strip (l : List String) :
    (l.filter (fun item => py_strip item != "")).map (fun item => py_strip item)
      = (l.map (fun item => py_strip item)).filter (fun s => s != "") := by
  induction l with
  | nil => rfl
  | cons x xs ih =>
    simp only [List.map_cons, List.filter_cons]
    cases hx : py_strip x != "" <;> simp [hx, ih]

/-- C7: a `list` block renders by splitting the content on newline, trimming
each line, dropping lines that are empty after trimming, and emitting the
surviving items as list items in their original order; on `"A\nB\n\nC"` the
items are exactly `"A"`, `"B"`, `"C"` in that order apart from the dropped
blank line. -/
theorem c7_list_rendering (b : ContentBlock) (h : b.block_type = "list") :
    ContentBlock.render b = "<div class='content-block list'>" ++
        ("<ul>" ++ String.join ((((py_split '\n' b.content).map (fun item => py_strip item)).filter
          (fun s => s != "")).map (fun item => "<li>" ++ item ++ "</li>")) ++ "</ul>")
        ++ "</div>"
    ∧ ((py_split '\n' "A\nB\n\nC").map (fun item => py_strip item)).filter (fun s => s != "")
        = ["A", "B", "C"] := by
  constructor
  · simp [ContentBlock.render, h, filter_map_strip]
  · decide

/-- C7 witness: the list-block rendering evaluated on the spec's example
content. -/
theorem c7_witness :
    ContentBlock.render ⟨4, 1, "list", none, "A\nB\n\nC", 0, true⟩
      = "<div class='content-block list'>" ++
        ("<ul>" ++ String.join ((((py_split '\n' "A\nB\n\nC").map (fun item => py_strip item)).filter
          (fun s => s != "")).map (fun item => "<li>" ++ item ++ "</li>")) ++ "</ul>")
        ++ "</div>" :=
  (c7_list_rendering ⟨4, 1, "list", none, "A\nB\n\nC", 0, true⟩ rfl).1

end Mullet

namespace Mullet

/-- Demo page carrying two blocks with equal `order_index`. -/
def tie_page : Page := ⟨5, 1, "tie", "Tie", true⟩

/-- First-created block with `order_index` 2. -/
def tie_block_a : ContentBlock := ⟨10, 5, "text", none, "first", 2, true⟩

/-- Second-created block with `order_index` 2. -/
def tie_block_b : ContentBlock := ⟨11, 5, "text", none, "second", 2, true⟩

/-- Demo database for the order-tie scenario. -/
def tie_db : DB := ⟨[], [tie_page], [tie_block_a, tie_block_b], []⟩

/-- C3: content assembly returns exactly the page's active blocks (a
permutation of the active rows of that page, nothing of another page and
nothing inactive, with every such block present), sorted non-decreasingly by
`order_index`; blocks already in insertion order whose indices do not force a
swap keep their relative order (stability, covering ties); and an empty
selection yields the empty list rather than an error. -/
theorem c3_content_assembly (d : DB) (page : Page) :
    List.Perm (get_content_blocks d page)
      (d.content_blocks.filter (fun b => b.page_id == page.id && b.is_active))
    ∧ (∀ b ∈ get_content_blocks d page,
        b ∈ d.content_blocks ∧ b.page_id = page.id ∧ b.is_active = true)
    ∧ (∀ b, b ∈ d.content_blocks → b.page_id = page.id → b.is_active = true →
        b ∈ get_content_blocks d page)
    ∧ List.Pairwise (fun a b => a.order_index ≤ b.order_index) (get_content_blocks d page)
    ∧ (∀ a b, List.Sublist [a, b]
          (d.content_blocks.filter (fun x => x.page_id == page.id && x.is_active)) →
        a.order_index ≤ b.order_index →
        List.Sublist [a, b] (get_content_blocks d page))
    ∧ (d.content_blocks.filter (fun b => b.page_id == page.id && b.is_active) = [] →
        get_content_blocks d page = []) := by
  refine ⟨List.perm_insertionSort block_le _, ?_, ?_, ?_, ?_, ?_⟩
  · intro b hb
    have hbf : b ∈ d.content_blocks.filter (fun b => b.page_id == page.id && b.is_active) :=
      (List.perm_insertionSort block_le _).mem_iff.mp hb
    obtain ⟨hmem, hp⟩ := List.mem_filter.mp hbf
    simp only [Bool.and_eq_true, beq_iff_eq] at hp
    exact ⟨hmem, hp.1, hp.2⟩
  · intro b hmem h1 h2
    exact (List.perm_insertionSort block_le _).mem_iff.mpr
      (List.mem_filter.mpr ⟨hmem, by simp [h1, h2]⟩)
  · exact List.sorted_insertionSort block_le _
  · intro a b hsub hle
    exact List.pair_sublist_insertionSort hle hsub
  · intro h
    unfold get_content_blocks
    rw [h]
    rfl

/-- C3 witness: two blocks of the same page with equal `order_index` keep
their creation order in the assembled output. -/
theorem c3_witness :
    List.Sublist [tie_block_a, tie_block_b] (get_content_blocks tie_db tie_page) :=
  (c3_content_assembly tie_db tie_page).2.2.2.2.1 tie_block_a tie_block_b
    (List.Sublist.refl _) (by decide)

end Mullet

namespace Mullet

/-- A root-anchored parent chain: each element's `parent_id` points at the
id of the next element, and the last element is a top-level item
(`parent_id = None`).  The recursion of `get_nav_children` only ever
descends along such chains, starting from the top-level items fetched by
`build_navigation`. -/
def linked : List NavigationItem → Prop
  | [] => True
  | [x] => x.parent_id = none
  | x :: y :: rest => x.parent_id = some y.id ∧ linked (y :: rest)

/-- In a root-anchored chain, every element's parent is `None` or the id of
some element of the chain. -/
theorem linked_parent_closed :
    ∀ (l : List NavigationItem), linked l →
      ∀ x ∈ l, x.parent_id = none ∨ ∃ y ∈ l, x.parent_id = some y.id := by
  intro l
  induction l with
  | nil => intro _ x hx; exact absurd hx (List.not_mem_nil x)
  | cons a t ih =>
    intro hl x hx
    cases t with
    | nil =>
      have hx2 : x = a := by simpa using hx
      subst hx2
      left
      simpa [linked] using hl
    | cons b t2 =>
      have hl2 : a.parent_id = some b.id ∧ linked (b :: t2) := by simpa [linked] using hl
      rcases List.mem_cons.mp hx with rfl | hx2
      · right
        exact ⟨b, List.mem_cons_of_mem _ (List.mem_cons_self b t2), hl2.1⟩
      · rcases ih hl2.2 x hx2 with h | ⟨y, hy, hxy⟩
        · left; exact h
        · right; exact ⟨y, List.mem_cons_of_mem _ hy, hxy⟩

/-- With distinct primary keys, equal ids identify rows. -/
theorem nav_id_inj {d : DB} (hids : (d.navigation_items.map NavigationItem.id).Nodup)
    {a b : NavigationItem} (ha : a ∈ d.navigation_items) (hb : b ∈ d.navigation_items)
    (hab : a.id = b.id) : a = b :=
  List.inj_on_of_nodup_map hids ha hb hab

/-- Key freshness property: a child of the deepest element of a duplicate-free
root-anchored chain is not itself on the chain.  This is what makes the
unguarded recursion of `get_nav_children` terminate: a cyclic parent chain is
never reachable from a top-level item. -/
theorem chain_fresh {d : DB} (hids : (d.navigation_items.map NavigationItem.id).Nodup) :
    ∀ (chain : List NavigationItem) (p : NavigationItem),
      linked (p :: chain) → (∀ x ∈ p :: chain, x ∈ d.navigation_items) →
      ((p :: chain).map NavigationItem.id).Nodup →
      ∀ c ∈ d.navigation_items, c.parent_id = some p.id →
      c.id ∉ (p :: chain).map NavigationItem.id := by
  intro chain
  induction chain with
  | nil =>
    intro p hl hmem hnd c hc hcp hin
    have hcid : c.id = p.id := by simpa using hin
    have hceq : c = p := nav_id_inj hids hc (hmem p (List.mem_cons_self p [])) hcid
    have hpn : p.parent_id = none := by simpa [linked] using hl
    rw [hceq, hpn] at hcp
    cases hcp
  | cons q rest ih =>
    intro p hl hmem hnd c hc hcp hin
    have hl2 : p.parent_id = some q.id ∧ linked (q :: rest) := by simpa [linked] using hl
    have hmemq : ∀ x ∈ q :: rest, x ∈ d.navigation_items :=
      fun x hx => hmem x (List.mem_cons_of_mem _ hx)
    have hndq : p.id ∉ (q :: rest).map NavigationItem.id ∧
        ((q :: rest).map NavigationItem.id).Nodup := List.nodup_cons.mp hnd
    rcases (by simpa using hin :
        c.id = p.id ∨ c.id ∈ (q :: rest).map NavigationItem.id) with h1 | h2
    · have hceq : c = p := nav_id_inj hids hc (hmem p (List.mem_cons_self _ _)) h1
      rw [hceq] at hcp
      have hqp : q.id = p.id := by
        have h3 := hl2.1.symm.trans hcp
        injection h3
      exact hndq.1 (by
        rw [← hqp]
        exact List.mem_map_of_mem _ (List.mem_cons_self q rest))
    · obtain ⟨x, hx, hxid⟩ := List.mem_map.mp h2
      have hxc : x = c := nav_id_inj hids (hmemq x hx) hc hxid
      rcases linked_parent_closed (q :: rest) hl2.2 c (hxc ▸ hx) with hnone | ⟨y, hy, hcy⟩
      · rw [hcp] at hnone
        cases hnone
      · rw [hcp] at hcy
        have hyid : y.id = p.id := by
          have h3 := hcy.symm
          injection h3
        have hyp : y = p := nav_id_inj hids (hmemq y hy) (hmem p (List.mem_cons_self _ _)) hyid
        exact hndq.1 (hyp ▸ List.mem_map_of_mem _ hy)

/-- A duplicate-free selection of rows is no longer than the table. -/
theorem chain_length_le {d : DB} (l : List NavigationItem)
    (hmem : ∀ x ∈ l, x ∈ d.navigation_items)
    (hnd : (l.map NavigationItem.id).Nodup) :
    l.length ≤ d.navigation_items.length := by
  have hsub : l.map NavigationItem.id ⊆ d.navigation_items.map NavigationItem.id := by
    intro i hi
    obtain ⟨x, hx, rfl⟩ := List.mem_map.mp hi
    exact List.mem_map_of_mem _ (hmem x hx)
  have h3 := (List.subperm_of_subset hnd hsub).length_le
  simpa using h3

/-- The traversal of a list succeeds when every element's computation
succeeds. -/
theorem option_traverse_isSome {α β : Type} {f : α → Option β} {l : List α}
    (h : ∀ x ∈ l, (f x).isSome = true) : (option_traverse f l).isSome = true := by
  induction l with
  | nil => rfl
  | cons x xs ih =>
    obtain ⟨y, hy⟩ := Option.isSome_iff_exists.mp (h x (List.mem_cons_self x xs))
    obtain ⟨ys, hys⟩ := Option.isSome_iff_exists.mp
      (ih (fun z hz => h z (List.mem_cons_of_mem _ hz)))
    simp [option_traverse, hy, hys]

/-- Fuel sufficiency for the child recursion: descending from the deepest
element of a root-anchored duplicate-free chain succeeds whenever the
remaining fuel covers the items not yet on the chain. -/
theorem get_nav_children_isSome (d : DB)
    (hids : (d.navigation_items.map NavigationItem.id).Nodup) :
    ∀ (fuel : Nat) (p : NavigationItem) (chain : List NavigationItem),
      linked (p :: chain) → (∀ x ∈ p :: chain, x ∈ d.navigation_items) →
      ((p :: chain).map NavigationItem.id).Nodup →
      d.navigation_items.length + 1 ≤ fuel + (p :: chain).length →
      (get_nav_children d fuel p.id).isSome = true := by
  intro fuel
  induction fuel with
  | zero =>
    intro p chain hl hmem hnd hlen
    exfalso
    have h3 := chain_length_le (p :: chain) hmem hnd
    omega
  | succ fuel ih =>
    intro p chain hl hmem hnd hlen
    simp only [get_nav_children]
    apply option_traverse_isSome
    intro c hcmem
    have hcf : c ∈ d.navigation_items.filter
        (fun it => it.parent_id == some p.id && it.is_active) :=
      (List.perm_insertionSort nav_le _).mem_iff.mp hcmem
    obtain ⟨hcd, hcp⟩ := List.mem_filter.mp hcf
    simp only [Bool.and_eq_true, beq_iff_eq] at hcp
    have hfresh : c.id ∉ (p :: chain).map NavigationItem.id :=
      chain_fresh hids chain p hl hmem hnd c hcd hcp.1
    have hrec : (get_nav_children d fuel c.id).isSome = true := by
      apply ih c (p :: chain) ⟨hcp.1, hl⟩
      · intro x hx
        rcases List.mem_cons.mp hx with rfl | hx2
        · exact hcd
        · exact hmem x hx2
      · exact List.nodup_cons.mpr ⟨hfresh, hnd⟩
      · simp only [List.length_cons] at hlen ⊢
        omega
    obtain ⟨v, hv⟩ := Option.isSome_iff_exists.mp hrec
    simp [hv]

/-- C2: for every database whose navigation items have distinct ids —
including sets whose parent references form a cycle — building the
navigation terminates within recursion depth equal to the number of
navigation items: with that much fuel the builder never hits the fuel
cutoff.  (The source has no visited-set or depth guard; termination holds
because recursion descends only along parent links anchored at a top-level
item, and a cyclic chain is never reachable from one.) -/
theorem c2_navigation_bounded (d : DB) (site : Site)
    (hids : (d.navigation_items.map NavigationItem.id).Nodup) :
    (build_navigation d site d.navigation_items.length).isSome = true := by
  unfold build_navigation
  apply option_traverse_isSome
  intro item hitem
  have hif : item ∈ d.navigation_items.filter
      (fun it => it.site_id == site.id && it.parent_id == none && it.is_active) :=
    (List.perm_insertionSort nav_le _).mem_iff.mp hitem
  obtain ⟨hid, hp⟩ := List.mem_filter.mp hif
  simp only [Bool.and_eq_true, beq_iff_eq] at hp
  have h3 : (get_nav_children d d.navigation_items.length item.id).isSome = true := by
    apply get_nav_children_isSome d hids d.navigation_items.length item []
      (by simpa [linked] using hp.1.2)
    · intro x hx
      have hx2 : x = item := by simpa using hx
      rw [hx2]
      exact hid
    · simp
    · simp
  obtain ⟨v, hv⟩ := Option.isSome_iff_exists.mp h3
  simp [hv]

/-- Navigation item A of an artificial parent cycle (A's parent is B). -/
def nav_a : NavigationItem := ⟨1, 1, "A", "/a", some 2, 0, true⟩

/-- Navigation item B of an artificial parent cycle (B's parent is A). -/
def nav_b : NavigationItem := ⟨2, 1, "B", "/b", some 1, 0, true⟩

/-- A genuine top-level navigation item alongside the cycle. -/
def nav_root : NavigationItem := ⟨3, 1, "Home", "/acme", none, 0, true⟩

/-- Database containing the artificial A→B→A parent cycle. -/
def cyclic_db : DB := ⟨[acme_site], [], [], [nav_a, nav_b, nav_root]⟩

/-- C2 witness: on a set holding the cycle A→B→A the builder completes
within depth 3 (the number of items). -/
theorem c2_witness :
    nav_a.parent_id = some nav_b.id
    ∧ nav_b.parent_id = some nav_a.id
    ∧ (build_navigation cyclic_db acme_site 3).isSome = true :=
  ⟨rfl, rfl, c2_navigation_bounded cyclic_db acme_site (by decide)⟩

end Mullet

namespace Mullet

/-- No piece produced by splitting at a separator contains the separator. -/
theorem split_char_no_sep (sep : Char) :
    ∀ (l : List Char), ∀ g ∈ split_char sep l, sep ∉ g := by
  intro l
  induction l with
  | nil =>
    intro g hg
    have hg2 : g = [] := by simpa [split_char] using hg
    simp [hg2]
  | cons c cs ih =>
    intro g hg
    cases hsp : split_char sep cs with
    | nil =>
      have hg2 : g = [] := by simpa [split_char, hsp] using hg
      simp [hg2]
    | cons g0 gs =>
      by_cases hc : c = sep
      · have hg2 : g = [] ∨ g = g0 ∨ g ∈ gs := by
          simpa [split_char, hsp, hc] using hg
        rcases hg2 with rfl | rfl | hg3
        · simp
        · exact ih _ (by rw [hsp]; exact List.mem_cons_self _ _)
        · exact ih g (by rw [hsp]; exact List.mem_cons_of_mem _ hg3)
      · have hg2 : g = c :: g0 ∨ g ∈ gs := by
          simpa [split_char, hsp, hc] using hg
        rcases hg2 with rfl | hg3
        · intro hmem
          rcases List.mem_cons.mp hmem with h4 | h4
          · exact hc h4.symm
          · exact ih g0 (by rw [hsp]; exact List.mem_cons_self g0 gs) h4
        · exact ih g (by rw [hsp]; exact List.mem_cons_of_mem _ hg3)

/-- No segment produced by `url_path.strip('/').split('/')` contains a
slash. -/
theorem parse_parts_no_slash (url_path : String) :
    ∀ part ∈ parse_path_parts url_path, '/' ∉ part.toList := by
  intro part hp
  obtain ⟨cs, hcs, rfl⟩ := List.mem_map.mp hp
  have h3 := split_char_no_sep '/' (strip_char '/' url_path.toList) cs hcs
  simpa [String.toList] using h3

/-- C10: segments beyond the second are ignored — the route over
`[t, a, extra...]` equals the route over `[t, a]` outright; consequently the
page served by any URL has a slash-free path, so a stored page path that
contains a slash (which the model's path validator permits, e.g.
`about/team`) is never reachable through the dynamic route. -/
theorem c10_extra_segments_ignored (d : DB) (fuel : Nat) (pfx seg : String)
    (extra : List String) :
    route_from_parts d fuel (pfx :: seg :: extra) = route_from_parts d fuel [pfx, seg]
    ∧ (∀ url_path out, (dynamic_route d fuel url_path).1 = Except.ok out →
        '/' ∉ (RouteOutput.page out).path.toList)
    ∧ validate_path "about/team" = Except.ok "about/team" := by
  refine ⟨rfl, ?_, by rfl⟩
  intro url_path out h
  unfold dynamic_route at h
  cases hparts : parse_path_parts url_path with
  | nil => rw [hparts] at h; simp [route_from_parts] at h
  | cons p0 rest =>
    rw [hparts] at h
    cases hs : resolve_site d p0 with
    | none => simp [route_from_parts, hs] at h
    | some site0 =>
      cases hpg : resolve_page d site0 (page_path_of rest) with
      | none => simp [route_from_parts, hs, hpg] at h
      | some page0 =>
        simp [route_from_parts, hs, hpg] at h
        have hpath : page0.path = page_path_of rest := by
          obtain ⟨hmem, hp⟩ := filter_head_eq_some hpg
          simp only [Bool.and_eq_true, beq_iff_eq] at hp
          exact hp.1.2
        rw [← h]
        show '/' ∉ page0.path.toList
        rw [hpath]
        cases rest with
        | nil => decide
        | cons s1 r2 =>
          have hs1 : s1 ∈ parse_path_parts url_path := by
            rw [hparts]
            exact List.mem_cons_of_mem _ (List.mem_cons_self s1 r2)
          simpa [page_path_of] using parse_parts_no_slash url_path s1 hs1

/-- C10 witness: `/acme/about/x/y` serves the `about` page, whose path is
slash-free. -/
theorem c10_witness :
    '/' ∉ (RouteOutput.page route_ok_output).path.toList :=
  (c10_extra_segments_ignored demo_db 1 "acme" "about" []).2.1 "acme/about/x/y"
    route_ok_output (by rfl)

end Mullet
